import Mathlib

/-!
Verification development for the image-scaler repository
(src/image_scaler.py and src/image_publisher.py).

The Python code is shallowly embedded: pure arithmetic is modelled over
ℚ/ℤ/ℕ (Python's real-valued expressions are exact at every concrete input
used below), fallible code over `Except`, and the filesystem / Drive side
effects as explicit lists of events or produced artefacts.
-/

namespace ImageScaler

/-- A decoded raster image, reduced to its pixel dimensions
(src/image_scaler.py, `Image.open`; the pixel payload is irrelevant to the
dimension claims). -/
structure Img where
  width : ℕ
  height : ℕ
deriving DecidableEq

/-- Lines 22-25 of src/image_scaler.py: `should_rotate = img.width > img.height`;
a 90° rotation with `expand=True` swaps the two dimensions. -/
def rotateIfLandscape (img : Img) : Img :=
  if img.height < img.width then ⟨img.height, img.width⟩ else img

/-- Python's built-in `round` (round half to even), as applied by PIL's
`Image.crop` to each box coordinate (`map(int, map(round, box))` in
Pillow's `Image._crop`). -/
def pyRound (q : ℚ) : ℤ :=
  if q - ⌊q⌋ < 1/2 then ⌊q⌋
  else if 1/2 < q - ⌊q⌋ then ⌊q⌋ + 1
  else if ⌊q⌋ % 2 = 0 then ⌊q⌋ else ⌊q⌋ + 1

/-- Lines 27-36 of src/image_scaler.py: the cover-fit resize target.
`aspect_ratio = width / height`, `target_aspect_ratio = tw / th`;
if the image is relatively wider, fix the height and ceil the width,
otherwise fix the width and ceil the height. -/
def resizeDims (img : Img) (size : ℕ × ℕ) : ℕ × ℕ :=
  let ar : ℚ := (img.width : ℚ) / (img.height : ℚ)
  let tar : ℚ := (size.1 : ℚ) / (size.2 : ℚ)
  if tar < ar then (⌈(size.2 : ℚ) * ar⌉.toNat, size.2)
  else (size.1, (⌈(size.1 : ℚ) / ar⌉).toNat)

/-- Lines 39-44 of src/image_scaler.py followed by PIL's crop:
`left = (new_width - target_width) / 2`, `right = left + target_width`
(similarly for the vertical axis); PIL rounds each coordinate with
`round` and the cropped image has dimensions `(x1 - x0, y1 - y0)`. -/
def cropDims (nw nh tw th : ℕ) : ℤ × ℤ :=
  let left : ℚ := ((nw : ℚ) - (tw : ℚ)) / 2
  let top : ℚ := ((nh : ℚ) - (th : ℚ)) / 2
  (pyRound (left + (tw : ℚ)) - pyRound left, pyRound (top + (th : ℚ)) - pyRound top)

/-- Lines 16-44 of src/image_scaler.py, returning the pixel dimensions of
the produced variant: rotate landscape input, compute the cover-fit resize
dimensions, then center-crop the target rectangle. -/
def scale_and_crop (img : Img) (size : ℕ × ℕ) : ℤ × ℤ :=
  cropDims (resizeDims (rotateIfLandscape img) size).1
    (resizeDims (rotateIfLandscape img) size).2 size.1 size.2

/-- Lines 8-14 of src/image_scaler.py: the configured size table. -/
def SCALES : List (String × ℕ × ℕ) :=
  [("16x20", 1600, 2000), ("11x14", 1571, 2000), ("18x24", 1728, 2304),
   ("24x36", 1728, 2592), ("50x70", 1890, 2646)]

/-- Python's `str.endswith`, over the character-list view of a string. -/
def endsWithL (s suf : List Char) : Bool :=
  decide (suf.length ≤ s.length) && decide (s.drop (s.length - suf.length) = suf)

def extPng : List Char := ".png".toList

def extWebp : List Char := ".webp".toList

def extJpg : List Char := ".jpg".toList

def extJpeg : List Char := ".jpeg".toList

/-- Lines 57-61 of src/image_scaler.py:
`f.lower().endswith((".png", ".webp", ".jpg", ".jpeg"))`. -/
def isImageFile (name : String) : Bool :=
  let l := name.toList.map Char.toLower
  endsWithL l extPng || endsWithL l extWebp || endsWithL l extJpg || endsWithL l extJpeg

/-- Lines 57-61 of src/image_scaler.py: the accepted image files of a
folder listing, in listing order. -/
def imagePathsOf (listing : List String) : List String :=
  listing.filter isImageFile

/-- A scaled variant file, identified by the data encoded in its filename
`{idx}_{folder_name}_{scale_name}.png` (line 68 of src/image_scaler.py). -/
structure Variant where
  idx : ℕ
  folderName : String
  scaleName : String
deriving DecidableEq

/-- Lines 66-73 of src/image_scaler.py: one numbered variant per accepted
image, `enumerate(image_paths, start=1)`. -/
def variantsFor (n : ℕ) (folderName scaleName : String) : List Variant :=
  (List.range n).map (fun i => ⟨i + 1, folderName, scaleName⟩)

/-- A produced zip archive: its naming data and its entries in order
(lines 46-49 and 75-82 of src/image_scaler.py). -/
structure Archive where
  folderName : String
  scaleName : String
  entries : List Variant
deriving DecidableEq

/-- Lines 75-82 of src/image_scaler.py: every scaled image of the size is
appended to `current_files` and a single `create_zip` call writes one
archive `{folder_name}_{scale_name}.zip`; no byte budget is consulted and
the call is made even when the entry list is empty. -/
def packArchives (folderName scaleName : String) (variants : List Variant) : List Archive :=
  [⟨folderName, scaleName, variants⟩]

/-- Lines 57-82 of src/image_scaler.py, for one configured size: the
archives written for a folder listing. -/
def archivesForScale (listing : List String) (folderName scaleName : String) : List Archive :=
  packArchives folderName scaleName
    (variantsFor (imagePathsOf listing).length folderName scaleName)

/-- The packer of lines 75-82 of src/image_scaler.py viewed on entry byte
sizes: all entries end up in the single archive, in order. -/
def pack (entries : List ℕ) : List (List ℕ) := [entries]

/-- One immediate child of the working directory as seen by `__main__`
(lines 87-95 of src/image_scaler.py): its name, whether it is a
directory, and its own listing. -/
structure FolderEntry where
  name : String
  isDir : Bool
  listing : List String
deriving DecidableEq

def venvName : String := "venv"

def scaledName : String := "scaled"

/-- Lines 90-94 of src/image_scaler.py: a folder is processed only when it
is a directory, is not named `venv`, and its listing has no entry named
`scaled`. -/
def should_process (f : FolderEntry) : Bool :=
  f.isDir && !(f.name == venvName) && !(decide (scaledName ∈ f.listing))

/-- Lines 87-95 of src/image_scaler.py: the folders `process_folder` is
invoked on during a run. -/
def main_processed (folders : List FolderEntry) : List FolderEntry :=
  folders.filter should_process

/-- A source image file as the scaler sees it: either decodable with the
given dimensions, or one that `Image.open`/decoding raises on. -/
inductive PImage
  | good (w h : ℕ)
  | corrupt
deriving DecidableEq

def decodeErrorMsg : String := "DecodeError"

/-- Lines 66-73 of src/image_scaler.py for one size: each image is opened
and scaled in turn; there is no `try`/`except`, so the first undecodable
image raises and the remaining images of the folder are not processed. -/
def processScaleE : List PImage → ℕ × ℕ → Except String (List (ℤ × ℤ))
  | [], _ => .ok []
  | .corrupt :: _, _ => .error decodeErrorMsg
  | .good w h :: rest, size =>
    match processScaleE rest size with
    | .error e => .error e
    | .ok vs => .ok (scale_and_crop ⟨w, h⟩ size :: vs)

/-- Lines 63-82 of src/image_scaler.py: the sizes are processed in order;
an exception raised while processing one size propagates out of the loop. -/
def processScalesE (imgs : List PImage) : List (String × ℕ × ℕ) → Except String (List (List (ℤ × ℤ)))
  | [] => .ok []
  | (_, sz) :: rest =>
    match processScaleE imgs sz with
    | .error e => .error e
    | .ok vs =>
      match processScalesE imgs rest with
      | .error e => .error e
      | .ok rs => .ok (vs :: rs)

/-- `process_folder` of src/image_scaler.py restricted to its image
processing: iterate the configured sizes over the folder's images. -/
def processFolderE (imgs : List PImage) : Except String (List (List (ℤ × ℤ))) :=
  processScalesE imgs SCALES

/-- Lines 84-95 of src/image_scaler.py: `process_folder` is called for
each candidate folder with no `try`/`except` around the call, so an
exception raised in one folder aborts the remaining folders as well. -/
def runE : List (List PImage) → Except String (List (List (List (ℤ × ℤ))))
  | [] => .ok []
  | f :: fs =>
    match processFolderE f with
    | .error e => .error e
    | .ok v =>
      match runE fs with
      | .error e => .error e
      | .ok vs => .ok (v :: vs)

/-- A file inside a folder's `scaled` subfolder as the publisher sees it:
its name, whether its suffix is `.zip` (line 299 of
src/image_publisher.py), and whether uploading it to Drive would succeed
(`HttpError` is caught per file, lines 302-306). -/
structure LocalFile where
  name : String
  isZip : Bool
  uploadOk : Bool
deriving DecidableEq

/-- The externally visible actions of `process_folder` in
src/image_publisher.py that touch the variant files. -/
inductive PubEvent
  | uploadAttempt (name : String) (ok : Bool)
  | deleteFile (name : String)
deriving DecidableEq

/-- Lines 298-308 of src/image_publisher.py: each zip file is uploaded
inside a `try`/`except HttpError` block; a failure is logged and the loop
continues. -/
def uploadEvents (files : List LocalFile) : List PubEvent :=
  (files.filter (fun f => f.isZip)).map (fun f => .uploadAttempt f.name f.uploadOk)

/-- Lines 267-279 and 311 of src/image_publisher.py:
`delete_all_files_in_folder` unlinks every file directly inside the
`scaled` folder. -/
def deleteEvents (files : List LocalFile) : List PubEvent :=
  files.map (fun f => .deleteFile f.name)

/-- Lines 282-311 of src/image_publisher.py in trace form: the upload
attempts happen first, then every local file of the `scaled` folder is
deleted, unconditionally on the upload outcomes. -/
def publisher_process_folder (files : List LocalFile) : List PubEvent :=
  uploadEvents files ++ deleteEvents files

/-- Line 240 of src/image_publisher.py: the break characters
`"/?=&-_."` of `wrap_text`. -/
def breakChars : List Char := ['/', '?', '=', '&', '-', '_', '.']

/-- Lines 232-245 of src/image_publisher.py: the loop of `wrap_text`.
`buf` accumulates characters; once `len(buf) >= max_chars` and the
current character is a break character, `buf` is flushed as a line; a
trailing non-empty `buf` becomes the final line. -/
def wrapGo (maxChars : ℤ) : List Char → List Char → List (List Char)
  | buf, [] => if buf = [] then [] else [buf]
  | buf, c :: rest =>
    if maxChars ≤ ((buf ++ [c]).length : ℤ) ∧ c ∈ breakChars then
      (buf ++ [c]) :: wrapGo maxChars [] rest
    else
      wrapGo maxChars (buf ++ [c]) rest

/-- `wrap_text` of src/image_publisher.py, over the character-list view
of the string. -/
def wrap_text (s : List Char) (maxChars : ℤ) : List (List Char) :=
  wrapGo maxChars [] s

def albumName : String := "album"

def scaleLabel : String := "16x20"

def txtName : String := "notes.txt"

def zipAName : String := "a.zip"

def pdfName : String := "info.pdf"

theorem pyRound_intCast (m : ℤ) : pyRound (m : ℚ) = m := by
  simp [pyRound, Int.floor_intCast]

theorem pyRound_int_add_half (m : ℤ) :
    pyRound ((m : ℚ) + 1/2) = if m % 2 = 0 then m else m + 1 := by
  have hf : ⌊(m : ℚ) + 1/2⌋ = m := by
    rw [add_comm, Int.floor_add_int]
    norm_num
  unfold pyRound
  rw [hf]
  have hx : (m : ℚ) + 1/2 - (m : ℚ) = 1/2 := by ring
  rw [hx]
  rw [if_neg (by norm_num), if_neg (by norm_num)]

/-- Moving a crop edge by an integer extent `e` starting from the offset
`d / 2` changes the rounded coordinate by exactly `e` whenever `d` is even
(the offset is an integer) or `e` is even (round-half-even treats the two
tied endpoints identically). -/
theorem pyRound_half_shift (d e : ℕ) (h : d % 2 = 0 ∨ e % 2 = 0) :
    pyRound ((d : ℚ) / 2 + (e : ℚ)) - pyRound ((d : ℚ) / 2) = (e : ℤ) := by
  rcases Nat.even_or_odd d with ⟨m, hm⟩ | ⟨m, hm⟩
  · subst hm
    have h2 : ((m + m : ℕ) : ℚ) / 2 + (e : ℚ) = (((m : ℤ) + (e : ℤ) : ℤ) : ℚ) := by
      push_cast; ring
    have h1 : ((m + m : ℕ) : ℚ) / 2 = ((m : ℤ) : ℚ) := by push_cast; ring
    rw [h2, h1, pyRound_intCast, pyRound_intCast]
    ring
  · have he : e % 2 = 0 := by
      rcases h with h | h
      · omega
      · exact h
    subst hm
    have h2 : ((2 * m + 1 : ℕ) : ℚ) / 2 + (e : ℚ) = ((((m : ℤ) + (e : ℤ)) : ℤ) : ℚ) + 1/2 := by
      push_cast; ring
    have h1 : ((2 * m + 1 : ℕ) : ℚ) / 2 = (((m : ℕ) : ℤ) : ℚ) + 1/2 := by
      push_cast; ring
    rw [h2, h1, pyRound_int_add_half, pyRound_int_add_half]
    split_ifs with h3 h4 h4 <;> omega

theorem rotate_pos (img : Img) (hw : 0 < img.width) (hh : 0 < img.height) :
    0 < (rotateIfLandscape img).width ∧ 0 < (rotateIfLandscape img).height := by
  unfold rotateIfLandscape
  split_ifs
  · exact ⟨hh, hw⟩
  · exact ⟨hw, hh⟩

/-- The cover-fit branch selection of lines 31-36 of src/image_scaler.py:
for any image with positive dimensions the resize target covers the
requested rectangle in both axes. -/
theorem resize_core (img : Img) (tw th : ℕ) (hw : 0 < img.width) (hh : 0 < img.height)
    (htw : 0 < tw) (hth : 0 < th) :
    tw ≤ (resizeDims img (tw, th)).1 ∧ th ≤ (resizeDims img (tw, th)).2 := by
  have hwQ : (0 : ℚ) < (img.width : ℚ) := by exact_mod_cast hw
  have hhQ : (0 : ℚ) < (img.height : ℚ) := by exact_mod_cast hh
  have htwQ : (0 : ℚ) < (tw : ℚ) := by exact_mod_cast htw
  have hthQ : (0 : ℚ) < (th : ℚ) := by exact_mod_cast hth
  have har : (0 : ℚ) < (img.width : ℚ) / (img.height : ℚ) := div_pos hwQ hhQ
  simp only [resizeDims]
  split_ifs with hc
  · refine ⟨?_, le_refl th⟩
    have h1 : (tw : ℚ) < (th : ℚ) * ((img.width : ℚ) / (img.height : ℚ)) := by
      have h2 : (tw : ℚ) = (th : ℚ) * ((tw : ℚ) / (th : ℚ)) := by field_simp
      rw [h2]
      exact mul_lt_mul_of_pos_left hc hthQ
    have h3 : ((tw : ℤ) : ℚ) < (⌈(th : ℚ) * ((img.width : ℚ) / (img.height : ℚ))⌉ : ℚ) :=
      lt_of_lt_of_le (by exact_mod_cast h1) (Int.le_ceil _)
    have h4 : (tw : ℤ) < ⌈(th : ℚ) * ((img.width : ℚ) / (img.height : ℚ))⌉ := by
      exact_mod_cast h3
    omega
  · refine ⟨le_refl tw, ?_⟩
    have h1 : (th : ℚ) ≤ (tw : ℚ) / ((img.width : ℚ) / (img.height : ℚ)) := by
      rw [le_div_iff₀ har]
      have h2 : (th : ℚ) * ((tw : ℚ) / (th : ℚ)) = (tw : ℚ) := by field_simp
      calc (th : ℚ) * ((img.width : ℚ) / (img.height : ℚ))
          ≤ (th : ℚ) * ((tw : ℚ) / (th : ℚ)) :=
            mul_le_mul_of_nonneg_left (not_lt.mp hc) (le_of_lt hthQ)
        _ = (tw : ℚ) := h2
    have h3 : ((th : ℤ) : ℚ) ≤ (⌈(tw : ℚ) / ((img.width : ℚ) / (img.height : ℚ))⌉ : ℚ) :=
      le_trans (by exact_mod_cast h1) (Int.le_ceil _)
    have h4 : (th : ℤ) ≤ ⌈(tw : ℚ) / ((img.width : ℚ) / (img.height : ℚ))⌉ := by
      exact_mod_cast h3
    omega

/-- C2: for every source image with positive width and height and every
SizeSpec `(w, h)`, the intermediate resize dimensions computed by
`scale_and_crop` (after the landscape rotation) satisfy
`new_width ≥ w` and `new_height ≥ h`: the cover-fit resize never
under-fills the target rectangle, for every aspect ratio. -/
theorem cover_fit_resize (img : Img) (tw th : ℕ)
    (hiw : 0 < img.width) (hih : 0 < img.height) (htw : 0 < tw) (hth : 0 < th) :
    tw ≤ (resizeDims (rotateIfLandscape img) (tw, th)).1 ∧
    th ≤ (resizeDims (rotateIfLandscape img) (tw, th)).2 := by
  obtain ⟨hrw, hrh⟩ := rotate_pos img hiw hih
  exact resize_core (rotateIfLandscape img) tw th hrw hrh htw hth

/-- Witness for C2 at the concrete image 3×5 and size (2, 3). -/
theorem cover_fit_resize_witness :
    2 ≤ (resizeDims (rotateIfLandscape ⟨3, 5⟩) (2, 3)).1 ∧
    3 ≤ (resizeDims (rotateIfLandscape ⟨3, 5⟩) (2, 3)).2 :=
  cover_fit_resize ⟨3, 5⟩ 2 3 (by decide) (by decide) (by decide) (by decide)

/-- C1 (amended): the image returned by `scale_and_crop` has pixel
dimensions exactly `w × h` whenever, in each axis, the target extent is
even or the difference between the resized extent and the target extent is
even; this covers every even-sized SizeSpec and every even crop
difference.  (When both are odd the round-half-even treatment of the two
fractional crop coordinates moves them by different amounts and the
produced extent is off by one, see the counterexample.) -/
theorem scale_and_crop_dims (img : Img) (tw th : ℕ)
    (hiw : 0 < img.width) (hih : 0 < img.height) (htw : 0 < tw) (hth : 0 < th)
    (hx : ((resizeDims (rotateIfLandscape img) (tw, th)).1 - tw) % 2 = 0 ∨ tw % 2 = 0)
    (hy : ((resizeDims (rotateIfLandscape img) (tw, th)).2 - th) % 2 = 0 ∨ th % 2 = 0) :
    scale_and_crop img (tw, th) = ((tw : ℤ), (th : ℤ)) := by
  obtain ⟨hrw, hrh⟩ := rotate_pos img hiw hih
  obtain ⟨h1, h2⟩ := resize_core (rotateIfLandscape img) tw th hrw hrh htw hth
  unfold scale_and_crop cropDims
  have e1 : ((resizeDims (rotateIfLandscape img) (tw, th)).1 : ℚ) - (((tw, th).1 : ℕ) : ℚ)
      = (((resizeDims (rotateIfLandscape img) (tw, th)).1 - tw : ℕ) : ℚ) := by
    rw [Nat.cast_sub h1]
  have e2 : ((resizeDims (rotateIfLandscape img) (tw, th)).2 : ℚ) - (((tw, th).2 : ℕ) : ℚ)
      = (((resizeDims (rotateIfLandscape img) (tw, th)).2 - th : ℕ) : ℚ) := by
    rw [Nat.cast_sub h2]
  simp only [] at e1 e2 ⊢
  rw [e1, e2]
  have r1 := pyRound_half_shift ((resizeDims (rotateIfLandscape img) (tw, th)).1 - tw) tw hx
  have r2 := pyRound_half_shift ((resizeDims (rotateIfLandscape img) (tw, th)).2 - th) th hy
  rw [Prod.mk.injEq]
  exact ⟨r1, r2⟩

/-- Witness for C1 (amended) at the concrete image 800×1000 and the
configured even size (1600, 2000). -/
theorem scale_and_crop_dims_witness :
    scale_and_crop ⟨800, 1000⟩ (1600, 2000) = ((1600 : ℤ), (2000 : ℤ)) :=
  scale_and_crop_dims ⟨800, 1000⟩ 1600 2000 (by decide) (by decide) (by decide) (by decide)
    (Or.inr (by decide)) (Or.inr (by decide))

/-- Counterexample to C1 as stated: for the configured size
`11x14 = (1571, 2000)` (odd target width) and the decodable 811×1024
source image, the resize target is 1584×2000, the horizontal crop box is
`(6.5, 1577.5)`, and round-half-even sends it to `(6, 1578)`: the produced
image is 1572×2000, not 1571×2000. -/
theorem scale_and_crop_odd_off_by_one :
    scale_and_crop ⟨811, 1024⟩ (1571, 2000) = ((1572 : ℤ), (2000 : ℤ)) ∧
    ¬ scale_and_crop ⟨811, 1024⟩ (1571, 2000) = ((1571 : ℤ), (2000 : ℤ)) := by
  have hrot : rotateIfLandscape ⟨811, 1024⟩ = ⟨811, 1024⟩ := by
    unfold rotateIfLandscape
    norm_num
  have hceil : ⌈(101375 : ℚ) / (64 : ℚ)⌉ = (1584 : ℤ) := by
    rw [Int.ceil_eq_iff]
    constructor <;> norm_num
  have hres : resizeDims ⟨811, 1024⟩ (1571, 2000) = (1584, 2000) := by
    simp only [resizeDims]
    rw [if_pos (by norm_num)]
    norm_num [hceil]
    decide
  have hmain : scale_and_crop ⟨811, 1024⟩ (1571, 2000) = ((1572 : ℤ), (2000 : ℤ)) := by
    unfold scale_and_crop
    rw [hrot, hres]
    unfold cropDims
    simp only []
    have p1 : ((1584 : ℕ) : ℚ) - ((1571 : ℕ) : ℚ) = 13 := by norm_num
    have p2 : ((2000 : ℕ) : ℚ) - ((2000 : ℕ) : ℚ) = 0 := by norm_num
    rw [p1, p2]
    have q1 : pyRound ((13 : ℚ) / 2 + ((1571 : ℕ) : ℚ)) = 1578 := by
      norm_num [pyRound]
    have q2 : pyRound ((13 : ℚ) / 2) = 6 := by
      norm_num [pyRound]
    have q3 : pyRound ((0 : ℚ) / 2 + ((2000 : ℕ) : ℚ)) = 2000 := by
      norm_num [pyRound]
    have q4 : pyRound ((0 : ℚ) / 2) = 0 := by
      norm_num [pyRound]
    rw [q1, q2, q3, q4]
    norm_num
  exact ⟨hmain, by rw [hmain]; decide⟩

theorem variantsFor_nodup (n : ℕ) (fn sn : String) : (variantsFor n fn sn).Nodup := by
  unfold variantsFor
  refine List.Nodup.map ?_ (List.nodup_range n)
  intro a b hab
  simp only [Variant.mk.injEq] at hab
  obtain ⟨h1, -, -⟩ := hab
  omega

/-- C4: for every input sequence of variants for one SizeSpec,
concatenating the entries of all produced archives in archive order yields
exactly the original input sequence; every variant of the input is
assigned to exactly one archive; and the variant sequence the scaler
actually feeds in (`variantsFor`) has no duplicates, so no entry is
dropped or duplicated and the relative order is that of the input. -/
theorem archives_concat_input (vs : List Variant) (fn sn : String) :
    ((packArchives fn sn vs).map Archive.entries).flatten = vs ∧
    (∀ v ∈ vs, ((packArchives fn sn vs).countP (fun a => decide (v ∈ a.entries))) = 1) ∧
    ∀ n, (variantsFor n fn sn).Nodup := by
  refine ⟨?_, ?_, fun n => variantsFor_nodup n fn sn⟩
  · simp [packArchives]
  · intro v hv
    simp [packArchives, List.countP_cons, hv]

/-- Witness for C4 on a concrete two-variant input. -/
theorem archives_concat_input_witness :
    ((packArchives albumName scaleLabel
        [⟨1, albumName, scaleLabel⟩, ⟨2, albumName, scaleLabel⟩]).map Archive.entries).flatten
      = [⟨1, albumName, scaleLabel⟩, ⟨2, albumName, scaleLabel⟩] ∧
    ((packArchives albumName scaleLabel
        [⟨1, albumName, scaleLabel⟩, ⟨2, albumName, scaleLabel⟩]).countP
       (fun a => decide ((⟨1, albumName, scaleLabel⟩ : Variant) ∈ a.entries))) = 1 :=
  ⟨(archives_concat_input _ albumName scaleLabel).1,
   (archives_concat_input _ albumName scaleLabel).2.1 _ (by decide)⟩

/-- Counterexample to C3 as stated: with budget `B = 20` and entry sizes
`[15, 15]`, the single archive the code produces has total size `30 > B`
and contains two entries, violating both the size bound and the
start-a-new-archive rule (the code of lines 75-82 of src/image_scaler.py
consults no budget at all). -/
theorem pack_exceeds_budget :
    ∃ a ∈ pack [15, 15], 20 < a.sum ∧ a.length ≠ 1 :=
  ⟨[15, 15], by decide, by decide, by decide⟩

/-- C3 (amended): for every input sequence of entries, the packer ignores
any byte budget and places all entries into a single archive, in input
order; the archive's total size is the sum of all entry sizes (and may
therefore exceed any budget when several entries are present). -/
theorem pack_single_archive (entries : List ℕ) (listing : List String) (fn sn : String) :
    pack entries = [entries] ∧ (pack entries).map List.sum = [entries.sum] ∧
    (archivesForScale listing fn sn).length = 1 :=
  ⟨rfl, rfl, rfl⟩

/-- Counterexample to C5 as stated: a folder listing with no accepted
image file still yields one (empty) archive for the size — `create_zip`
is called unconditionally on line 82 of src/image_scaler.py. -/
theorem empty_listing_archive :
    imagePathsOf [txtName] = [] ∧
    archivesForScale [txtName] albumName scaleLabel = [⟨albumName, scaleLabel, []⟩] := by
  constructor
  · decide
  · decide

/-- C5 (amended): if the folder contains no accepted image files, the
packer still creates exactly one archive for the size, and that archive
has no entries (an empty zip file). -/
theorem no_images_still_one_archive (listing : List String) (fn sn : String)
    (h : imagePathsOf listing = []) :
    (archivesForScale listing fn sn).length = 1 ∧
    ∀ a ∈ archivesForScale listing fn sn, a.entries = [] := by
  unfold archivesForScale packArchives variantsFor
  rw [h]
  simp

/-- Witness for C5 (amended) at the empty folder listing. -/
theorem no_images_still_one_archive_witness :
    (archivesForScale [] albumName scaleLabel).length = 1 ∧
    ∀ a ∈ archivesForScale [] albumName scaleLabel, a.entries = [] :=
  no_images_still_one_archive [] albumName scaleLabel (by decide)

/-- C6: a top-level folder whose listing contains an entry named `scaled`
is never processed by the scaler run, so re-running the scaler on a
folder whose output subfolder already exists (in particular non-empty)
performs no work on it. -/
theorem scaled_entry_skips (folders : List FolderEntry) (f : FolderEntry)
    (h : scaledName ∈ f.listing) :
    should_process f = false ∧ f ∉ main_processed folders := by
  have h1 : should_process f = false := by
    simp [should_process, h]
  refine ⟨h1, fun hmem => ?_⟩
  simp only [main_processed] at hmem
  have h2 := (List.mem_filter.mp hmem).2
  rw [h1] at h2
  simp at h2

/-- Witness for C6 at a concrete folder whose listing holds `scaled`. -/
theorem scaled_entry_skips_witness :
    should_process ⟨albumName, true, [scaledName]⟩ = false ∧
    (⟨albumName, true, [scaledName]⟩ : FolderEntry) ∉
      main_processed [⟨albumName, true, [scaledName]⟩] :=
  scaled_entry_skips [⟨albumName, true, [scaledName]⟩] ⟨albumName, true, [scaledName]⟩ (by decide)

/-- C9: a source image with width strictly greater than height is rotated
(its dimensions swap) before the aspect ratio is computed, so every later
step sees an image with height ≥ width; an image with width ≤ height is
left unrotated.  The last conjunct records that `scale_and_crop` computes
its resize from the rotated image. -/
theorem rotate_orientation (img : Img) :
    (rotateIfLandscape img).width ≤ (rotateIfLandscape img).height ∧
    (img.height < img.width → rotateIfLandscape img = ⟨img.height, img.width⟩) ∧
    (img.width ≤ img.height → rotateIfLandscape img = img) ∧
    (∀ size, scale_and_crop img size =
      cropDims (resizeDims (rotateIfLandscape img) size).1
        (resizeDims (rotateIfLandscape img) size).2 size.1 size.2) := by
  refine ⟨?_, ?_, ?_, fun _ => rfl⟩
  · unfold rotateIfLandscape
    split_ifs with hc
    · exact le_of_lt hc
    · exact le_of_not_lt hc
  · intro hlt
    unfold rotateIfLandscape
    rw [if_pos hlt]
  · intro hle
    unfold rotateIfLandscape
    rw [if_neg (not_lt.mpr hle)]

/-- Witness for C9 at the concrete landscape image 5×3 and portrait
image 3×5. -/
theorem rotate_orientation_witness :
    rotateIfLandscape ⟨5, 3⟩ = ⟨3, 5⟩ ∧ rotateIfLandscape ⟨3, 5⟩ = ⟨3, 5⟩ :=
  ⟨(rotate_orientation ⟨5, 3⟩).2.1 (by decide), (rotate_orientation ⟨3, 5⟩).2.2.1 (by decide)⟩

theorem processScaleE_corrupt (imgs : List PImage) (sz : ℕ × ℕ)
    (h : PImage.corrupt ∈ imgs) :
    processScaleE imgs sz = .error decodeErrorMsg := by
  induction imgs with
  | nil => cases h
  | cons i rest ih =>
    cases i with
    | corrupt => rfl
    | good w hgt =>
      rcases List.mem_cons.mp h with h2 | h2
      · simp at h2
      · simp only [processScaleE, ih h2]

theorem processScaleE_error_msg (imgs : List PImage) (sz : ℕ × ℕ) (e : String)
    (h : processScaleE imgs sz = .error e) : e = decodeErrorMsg := by
  induction imgs generalizing e with
  | nil => simp [processScaleE] at h
  | cons i rest ih =>
    cases i with
    | corrupt =>
      simp only [processScaleE] at h
      exact (Except.error.inj h).symm
    | good w hgt =>
      simp only [processScaleE] at h
      cases hrec : processScaleE rest sz with
      | error e2 =>
        rw [hrec] at h
        simp at h
        rw [← h]
        exact ih e2 hrec
      | ok vs =>
        rw [hrec] at h
        simp at h

theorem processScalesE_error_msg (imgs : List PImage) (scales : List (String × ℕ × ℕ))
    (e : String) (h : processScalesE imgs scales = .error e) : e = decodeErrorMsg := by
  induction scales generalizing e with
  | nil => simp [processScalesE] at h
  | cons s rest ih =>
    obtain ⟨nm, sz⟩ := s
    simp only [processScalesE] at h
    cases h1 : processScaleE imgs sz with
    | error e1 =>
      rw [h1] at h
      simp at h
      rw [← h]
      exact processScaleE_error_msg imgs sz e1 h1
    | ok vs =>
      rw [h1] at h
      cases h2 : processScalesE imgs rest with
      | error e2 =>
        rw [h2] at h
        simp at h
        rw [← h]
        exact ih e2 h2
      | ok rs =>
        rw [h2] at h
        simp at h

theorem processFolderE_corrupt (imgs : List PImage) (h : PImage.corrupt ∈ imgs) :
    processFolderE imgs = .error decodeErrorMsg := by
  unfold processFolderE SCALES
  simp only [processScalesE, processScaleE_corrupt imgs _ h]

theorem processFolderE_error_msg (imgs : List PImage) (e : String)
    (h : processFolderE imgs = .error e) : e = decodeErrorMsg :=
  processScalesE_error_msg imgs SCALES e h

/-- C7 (amended): a decode failure is not confined to the failing image:
if any image of any folder of the run is undecodable, the whole run
terminates with that decode error — the remaining images of the folder
and the remaining folders are not processed (there is no `try`/`except`
in `process_folder` or in `__main__` of src/image_scaler.py). -/
theorem decode_failure_aborts (folders : List (List PImage)) (f : List PImage)
    (hf : f ∈ folders) (hc : PImage.corrupt ∈ f) :
    runE folders = .error decodeErrorMsg := by
  induction folders with
  | nil => cases hf
  | cons g gs ih =>
    rcases List.mem_cons.mp hf with rfl | hgs
    · simp only [runE, processFolderE_corrupt f hc]
    · cases hg : processFolderE g with
      | error e =>
        have he : e = decodeErrorMsg := processFolderE_error_msg g e hg
        simp only [runE, hg, he]
      | ok v =>
        simp only [runE, hg, ih hgs]

/-- Witness for C7 (amended): a corrupt image in the second folder aborts
the run. -/
theorem decode_failure_aborts_witness :
    runE [[PImage.good 640 480], [PImage.corrupt]] = .error decodeErrorMsg :=
  decode_failure_aborts [[PImage.good 640 480], [PImage.corrupt]] [PImage.corrupt]
    (by decide) (by decide)

/-- Counterexample to C7 as stated: with a corrupt first image in the
first folder, the entire run returns the decode error — the remaining
decodable image of the folder and the entire second folder are never
processed, instead of processing continuing past the failing image. -/
theorem decode_failure_counterexample :
    runE [[PImage.corrupt, PImage.good 800 1000], [PImage.good 640 480]]
      = .error decodeErrorMsg := rfl

/-- Counterexample to C8 as stated: for a zip file whose upload fails
(`HttpError` caught and logged), the publisher still deletes the local
file: the trace contains its deletion and no successful upload of it. -/
theorem publisher_deletes_despite_failed_upload :
    PubEvent.deleteFile zipAName ∈ publisher_process_folder [⟨zipAName, true, false⟩] ∧
    PubEvent.uploadAttempt zipAName true ∉ publisher_process_folder [⟨zipAName, true, false⟩] := by
  decide

/-- C8 (amended): the publisher deletes every file in the folder's
`scaled` subfolder after the upload attempts, regardless of whether the
individual uploads succeeded; a failed upload does not prevent the
deletion of its file. -/
theorem publisher_deletes_all (files : List LocalFile) (f : LocalFile) (h : f ∈ files) :
    PubEvent.deleteFile f.name ∈ publisher_process_folder files ∧
    publisher_process_folder files = uploadEvents files ++ deleteEvents files := by
  refine ⟨?_, rfl⟩
  unfold publisher_process_folder
  exact List.mem_append.mpr (Or.inr (List.mem_map_of_mem _ h))

/-- Witness for C8 (amended) on a concrete two-file `scaled` folder. -/
theorem publisher_deletes_all_witness :
    PubEvent.deleteFile pdfName ∈
      publisher_process_folder [⟨pdfName, false, false⟩, ⟨zipAName, true, true⟩] ∧
    publisher_process_folder [⟨pdfName, false, false⟩, ⟨zipAName, true, true⟩] =
      uploadEvents [⟨pdfName, false, false⟩, ⟨zipAName, true, true⟩] ++
      deleteEvents [⟨pdfName, false, false⟩, ⟨zipAName, true, true⟩] :=
  publisher_deletes_all _ ⟨pdfName, false, false⟩ (by decide)

theorem wrapGo_flatten (m : ℤ) (s : List Char) : ∀ buf : List Char,
    (wrapGo m buf s).flatten = buf ++ s := by
  induction s with
  | nil =>
    intro buf
    simp only [wrapGo]
    split_ifs with h
    · simp [h]
    · simp
  | cons c rest ih =>
    intro buf
    simp only [wrapGo]
    split_ifs with h
    · simp only [List.flatten_cons, ih []]
      simp
    · rw [ih (buf ++ [c])]
      simp

/-- C10: for every string and every `max_chars`, concatenating the lines
returned by `wrap_text` in order yields exactly the original string — the
wrapping never loses, duplicates, or reorders characters. -/
theorem wrap_text_concat (s : List Char) (maxChars : ℤ) :
    (wrap_text s maxChars).flatten = s := by
  unfold wrap_text
  rw [wrapGo_flatten]
  simp

end ImageScaler
